import Mathlib

/-!
# Verification of the Real-Food gamification / nutrition-scoring engine

Shallow embedding of the progression core of the Real-Food backend
(`backend/app/achievements_engine.py`, `backend/app/routers/gamification.py`,
`backend/app/routers/nutrition.py`) together with proofs and refutations of
the specification's claims about it.

Modelling conventions:
* calendar dates are integers (day numbers); subtracting two dates gives the
  day gap exactly as Python's `(a - b).days` does for `date` values;
* timestamps (`created_at`) are rationals, where calendar day `d` spans the
  half-open interval `[d, d+1)`; `datetime.combine(today, time.min)` is the
  rational `d`;
* Python floats (scores, quest values, thresholds) are rationals;
* Python `int` is `ℤ`; Python `//` is `Int.fdiv` (floor division);
* Python's falsy-or on numbers (`x or d`) is `if x = 0 then d else x`
  (the nullable columns involved are modelled by their coalesced value);
* the SQLAlchemy session is explicit state: each function takes the rows it
  reads and returns the rows as they stand after its `db.commit()`.
-/

/-- One `xp_transactions` row (`models/gamification.py`), restricted to the
fields the engine reads back: the single-user slice of the ledger. -/
structure XPTx where
  amount : ℤ
  reason : String
  created_at : ℚ
  deriving Repr, DecidableEq

/-- `LEVEL_TITLES` lookup plus fallback: `level_title` in
`achievements_engine.py`. -/
def level_title (level : ℤ) : String :=
  if level = 1 then "Curious Cook"
  else if level = 2 then "Kitchen Explorer"
  else if level = 3 then "Whole Food Rookie"
  else if level = 4 then "Nourishment Seeker"
  else if level = 5 then "Whole Food Warrior"
  else if level = 6 then "Nutrition Navigator"
  else if level = 7 then "Clean Eating Champion"
  else if level = 8 then "Macro Master"
  else if level = 9 then "Micronutrient Maven"
  else if level = 10 then "Nutrition Master"
  else if level = 11 then "Culinary Virtuoso"
  else if level = 12 then "Superfood Sage"
  else if level = 13 then "Wellness Architect"
  else if level = 14 then "Legendary Nourisher"
  else if level = 15 then "Whole Food Grandmaster"
  else "Grandmaster (Lv." ++ toString level ++ ")"

/-- Return value of `award_xp` (the dict it builds). -/
structure XPAward where
  xp_gained : ℤ
  total_xp : ℤ
  new_level : Option ℤ
  level_title : Option String
  deriving Repr, DecidableEq

/-- Post-state of `award_xp`: the user's cached XP total and the ledger
after the appended transaction, plus the returned dict. -/
structure AwardOut where
  xp_points : ℤ
  ledger : List XPTx
  ret : XPAward
  deriving Repr, DecidableEq

/-- `award_xp` (`achievements_engine.py` lines 314-334): appends an
`XPTransaction`, adds `amount` to the cached total (`user.xp_points or 0`,
modelled by the coalesced value `xp0`), and reports a level-up when the
post-award level exceeds the pre-award level.  `now` is the `created_at`
stamp of the new row. -/
def award_xp (xp0 : ℤ) (ledger : List XPTx) (amount : ℤ) (reason : String)
    (now : ℚ) : AwardOut :=
  let xp_per_level : ℤ := 1000
  let old_level := xp0.fdiv xp_per_level + 1
  let xp1 := xp0 + amount
  let new_level := xp1.fdiv xp_per_level + 1
  { xp_points := xp1
    ledger := ledger ++ [⟨amount, reason, now⟩]
    ret :=
      { xp_gained := amount
        total_xp := xp1
        new_level := if new_level > old_level then some new_level else none
        level_title :=
          if new_level > old_level then some (level_title new_level) else none } }

/-- One `nutrition_streaks` row (`models/gamification.py`), with nullable
integer columns coalesced (`current_streak`/`longest_streak` default 0) and
the nullable `threshold` column carried as its raw value (Python reads it as
`ns.threshold or 60.0`). -/
structure NS where
  current_streak : ℤ
  longest_streak : ℤ
  last_qualifying_date : Option ℤ
  threshold : ℚ
  deriving Repr, DecidableEq

/-- The row `update_nutrition_streak` creates when the user has none:
`NutritionStreak(user_id=..., threshold=60.0)` with column defaults
`current_streak = 0`, `longest_streak = 0`, `last_qualifying_date = NULL`. -/
def freshNS : NS := ⟨0, 0, none, 60⟩

/-- `ns.threshold or 60.0`: Python's falsy-or, so a stored threshold of `0.0`
also falls back to 60. -/
def effThreshold (ns : NS) : ℚ := if ns.threshold = 0 then 60 else ns.threshold

/-- The streak-field mutation of `update_nutrition_streak`
(`achievements_engine.py` lines 349-368): the qualifying branch increments on
a 1-day gap, no-ops when today was already counted, otherwise restarts at 1,
then stamps `last_qualifying_date` and refreshes `longest_streak`; the
non-qualifying branch zeroes `current_streak` only when the last qualifying
date is a different day more than 1 day back. -/
def streakStep (ns : NS) (daily_score : ℚ) (today : ℤ) : NS :=
  let threshold := effThreshold ns
  if daily_score ≥ threshold then
    let ns1 :=
      match ns.last_qualifying_date with
      | some last_q =>
          if today - last_q = 1 then
            { ns with current_streak := ns.current_streak + 1 }
          else if last_q = today then
            ns
          else
            { ns with current_streak := 1 }
      | none => { ns with current_streak := 1 }
    let ns2 := { ns1 with last_qualifying_date := some today }
    -- `(ns.longest_streak or 0)`: the falsy-or is the identity on the
    -- coalesced integer column.
    if ns2.current_streak > ns2.longest_streak then
      { ns2 with longest_streak := ns2.current_streak }
    else ns2
  else
    match ns.last_qualifying_date with
    | some last_q =>
        if last_q ≠ today ∧ today - last_q > 1 then
          { ns with current_streak := 0 }
        else ns
    | none => ns

/-- Tier ladder inside `update_nutrition_streak` (lines 380-388):
score ≥ 90 → 200 XP "Gold", else ≥ 75 → 100 XP "Silver", else 50 XP
"Bronze" (reached only on qualifying days). -/
def tierFor (daily_score : ℚ) : ℤ × String :=
  if daily_score ≥ 90 then (200, "Gold")
  else if daily_score ≥ 75 then (100, "Silver")
  else (50, "Bronze")

/-- The existing-tier-today query (lines 374-378): an `XPTransaction` of this
user whose reason matches `nutrition_tier:%` and whose `created_at` is at or
after midnight of `today` — with no upper bound on `created_at`. -/
def tierTxSince (ledger : List XPTx) (today : ℤ) : Bool :=
  ledger.any fun t =>
    "nutrition_tier:".data.isPrefixOf t.reason.data &&
      decide ((today : ℚ) ≤ t.created_at)

/-- Everything `update_nutrition_streak` leaves behind: the streak row, the
ledger and cached XP after any tier award, and the fields of the returned
dict that are not copies of the row. -/
structure StreakOut where
  ns : NS
  ledger : List XPTx
  xp_points : ℤ
  qualifies : Bool
  tier_label : Option String
  tier_xp : ℤ
  deriving Repr, DecidableEq

/-- `update_nutrition_streak` (`achievements_engine.py` lines 338-397):
lazily creates the streak row, applies `streakStep`, then — on a qualifying
day — pays the tier bonus through `award_xp` unless a `nutrition_tier:%`
transaction with `created_at` at or after midnight of `today` already
exists.  `now` is the `created_at` the awarded transaction would get. -/
def update_nutrition_streak (ns0 : Option NS) (ledger : List XPTx)
    (xp0 : ℤ) (daily_score : ℚ) (today : ℤ) (now : ℚ) : StreakOut :=
  let ns := ns0.getD freshNS
  let threshold := effThreshold ns
  let qualifies : Bool := decide (daily_score ≥ threshold)
  let ns1 := streakStep ns daily_score today
  if qualifies then
    if tierTxSince ledger today then
      ⟨ns1, ledger, xp0, qualifies, none, 0⟩
    else
      let (tier_xp, tier_label) := tierFor daily_score
      let out := award_xp xp0 ledger tier_xp ("nutrition_tier:" ++ tier_label) now
      ⟨ns1, out.ledger, out.xp_points, qualifies, some tier_label, tier_xp⟩
  else
    ⟨ns1, ledger, xp0, qualifies, none, 0⟩

/-! ## Quest generator (`routers/gamification.py`) -/

/-- Python `int()` on a nonnegative float truncates toward zero. -/
def pyInt (q : ℚ) : ℤ := if 0 ≤ q then ⌊q⌋ else ⌈q⌉

/-- One pool entry: `(title, description, metadata key, target, xp)`. -/
structure PoolEntry where
  title : String
  description : String
  key : String
  target : ℚ
  xp : ℤ
  deriving Repr, DecidableEq

/-- The `general_pool` literal (lines 275-279). -/
def general_pool : List PoolEntry :=
  [⟨"Healthify a Craving", "Transform one comfort food into a whole-food version.", "healthify", 1, 40⟩,
   ⟨"Save a Recipe", "Save a new recipe to your collection.", "save_recipe", 1, 25⟩,
   ⟨"Explore a Cuisine", "Browse recipes from a new cuisine.", "explore_cuisine", 1, 30⟩]

/-- The `logging_pool` literal (lines 281-285). -/
def logging_pool : List PoolEntry :=
  [⟨"Log Breakfast", "Log your breakfast meal.", "log_breakfast", 1, 30⟩,
   ⟨"Log All 3 Meals", "Log breakfast, lunch, and dinner.", "log_3_meals", 3, 60⟩,
   ⟨"Log a Snack", "Log a healthy snack.", "log_snack", 1, 20⟩]

/-- The `quality_pool` literal (lines 287-292), parameterized by the user's
protein and fiber targets exactly as the f-strings build it. -/
def quality_pool (protein_target fiber_target : ℚ) : List PoolEntry :=
  [⟨"Hit " ++ toString (pyInt protein_target) ++ "g Protein",
    "Reach your daily protein target of " ++ toString (pyInt protein_target) ++ "g.",
    "hit_protein", protein_target, 60⟩,
   ⟨"Eat " ++ toString (pyInt fiber_target) ++ "g Fiber",
    "Reach your daily fiber target of " ++ toString (pyInt fiber_target) ++ "g.",
    "hit_fiber", fiber_target, 50⟩,
   ⟨"Score Bronze+", "Achieve a daily nutrition score of 60 or higher.", "score_bronze", 60, 50⟩,
   ⟨"Score Silver+", "Achieve a daily nutrition score of 75 or higher.", "score_silver", 75, 80⟩]

/-- State of the process-wide `random` module generator: which seed string it
was last given and how many draws have been consumed since.  Mathematically,
each CPython draw after `random.seed(s)` is a pure function of `s` and the
draw index, abstracted here by a `RandSrc`. -/
structure RandState where
  seed : String
  draws : ℕ
  deriving Repr, DecidableEq

/-- Abstraction of the Mersenne-Twister stream: seed string, draw index and
pool size give the chosen index.  Quantifying theorems over every `RandSrc`
makes them independent of the concrete generator. -/
def RandSrc : Type := String → ℕ → ℕ → ℕ

/-- `random.seed(s)`: resets the global generator. -/
def randSeed (s : String) : RandState := ⟨s, 0⟩

/-- `random.choice(pool)` (`pool ≠ []`): consumes one draw from the global
generator and returns the selected element. -/
def randChoice (src : RandSrc) (g : RandState) (pool : List PoolEntry)
    (h : pool ≠ []) : PoolEntry × RandState :=
  (pool.get ⟨src g.seed g.draws pool.length % pool.length,
      Nat.mod_lt _ (List.length_pos.mpr h)⟩,
   ⟨g.seed, g.draws + 1⟩)

/-- One generated `daily_quests` row, with the fields `_generate_quests`
sets (`current_value = 0`, `completed = False`). -/
structure DailyQuest where
  quest_type : String
  title : String
  description : String
  target_value : ℚ
  current_value : ℚ
  xp_reward : ℤ
  completed : Bool
  completed_at : Option ℚ
  metadata_key : String
  deriving Repr, DecidableEq

/-- `_generate_quests` (`routers/gamification.py` lines 269-318): reads the
user's targets (defaults 130 g protein / 30 g fiber when the row is absent),
seeds the *global* generator with `f"{user.id}-{today.isoformat()}"`, draws
one entry from each pool, and inserts three rows.  The incoming global
generator state `g0` is part of the model so that its fate is provable;
`dateIso` is `today.isoformat()`. -/
def _generate_quests (src : RandSrc) (userId : String) (dateIso : String)
    (targets : Option (ℚ × ℚ)) (g0 : RandState) :
    List DailyQuest × RandState :=
  let protein_target := (targets.map Prod.fst).getD 130
  let fiber_target := (targets.map Prod.snd).getD 30
  let g1 := randSeed (userId ++ "-" ++ dateIso)
  let (gen, g2) := randChoice src g1 general_pool (by decide)
  let (log, g3) := randChoice src g2 logging_pool (by decide)
  let (qual, g4) := randChoice src g3 (quality_pool protein_target fiber_target)
    (by simp [quality_pool])
  let mk : String → PoolEntry → DailyQuest := fun quest_type e =>
    { quest_type := quest_type
      title := e.title
      description := e.description
      target_value := e.target
      current_value := 0
      xp_reward := e.xp
      completed := false
      completed_at := none
      metadata_key := e.key }
  ([mk "general" gen, mk "logging" log, mk "quality" qual], g4)

/-- Return payload of the quest-progress endpoint. -/
structure QuestProgressOut where
  quest : DailyQuest
  xp_points : ℤ
  ledger : List XPTx
  current_value : ℚ
  completed : Bool
  xp_gained : ℤ
  deriving Repr, DecidableEq

/-- `update_quest_progress` (`routers/gamification.py` lines 351-381), for a
quest that was found and belongs to the user: a completed quest returns
immediately with `xp_gained = 0`; otherwise
`current_value = min(target_value, (current_value or 0) + amount)` and, on
reaching the target, the quest is completed, stamped, and exactly one
`quest:<title>` XP award fires. -/
def update_quest_progress (q : DailyQuest) (xp0 : ℤ) (ledger : List XPTx)
    (amount : ℚ) (now : ℚ) : QuestProgressOut :=
  if q.completed then
    ⟨q, xp0, ledger, q.current_value, q.completed, 0⟩
  else
    let cur := min q.target_value (q.current_value + amount)
    let q1 := { q with current_value := cur }
    if cur ≥ q.target_value then
      let q2 := { q1 with completed := true, completed_at := some now }
      let out := award_xp xp0 ledger q.xp_reward ("quest:" ++ q.title) now
      ⟨q2, out.xp_points, out.ledger, cur, true, q.xp_reward⟩
    else
      ⟨q1, xp0, ledger, cur, false, 0⟩

/-! ## Score calculator (`routers/nutrition.py`) -/

/-- A nutrition snapshot / JSON dict: finitely many named rational values.
`snap.get(k, 0) or 0` — absent or falsy entries read as 0. -/
def Snapshot : Type := List (String × ℚ)

/-- `float(snap.get(k, 0) or 0)`. -/
def snapGet (s : Snapshot) (k : String) : ℚ := (s.lookup k).getD 0

/-- Python's numeric falsy-or `x or d`. -/
def orQ (x d : ℚ) : ℚ := if x = 0 then d else x

/-- `float(snap.get(k, 0) or snap.get(k', 0) or 0)`: the two-spelling macro
read — take `k` if present and nonzero, else `k'` if present and nonzero,
else 0. -/
def snapGet2 (s : Snapshot) (k k' : String) : ℚ := orQ (snapGet s k) (snapGet s k')

/-- The `nutrition_targets` row as `_compute_daily` reads it (macro columns
coalesced by the `or` reads; micronutrient targets a JSON dict). -/
structure Targets where
  calories_target : ℚ
  protein_g_target : ℚ
  carbs_g_target : ℚ
  fat_g_target : ℚ
  fiber_g_target : ℚ
  micronutrient_targets : List (String × ℚ)
  deriving Repr, DecidableEq

/-- Macro totals summed over the day's logs (lines 152-161). -/
def totalMacro (logs : List Snapshot) (k k' : String) : ℚ :=
  (logs.map fun s => snapGet2 s k k').sum

/-- `totals["calories"]` sums plain `snap.get("calories", 0) or 0`. -/
def totalCalories (logs : List Snapshot) : ℚ :=
  (logs.map fun s => snapGet s "calories").sum

/-- Micronutrient total for one configured key (lines 163-164). -/
def totalMicro (logs : List Snapshot) (k : String) : ℚ :=
  (logs.map fun s => snapGet s k).sum

/-- One entry of the `comparison` dict. -/
structure Cmp where
  consumed : ℚ
  target : ℚ
  pct : ℚ
  deriving Repr, DecidableEq

/-- A macro entry of `comparison` (lines 166-192): the recorded target is
`float(t or 0)` but the pct divisor is `float(t or 1)`. -/
def macroCmp (consumed t : ℚ) : Cmp :=
  ⟨consumed, orQ t 0, consumed / orQ t 1 * 100⟩

/-- A micronutrient entry of `comparison` (lines 194-200): both the recorded
target and the divisor are `float(target or 1)` — a fractional target such
as 0.9 stays the divisor. -/
def microCmp (consumed t : ℚ) : Cmp :=
  ⟨consumed, orQ t 1, consumed / orQ t 1 * 100⟩

/-- The `comparison` dict built by `_compute_daily` (lines 166-200) as a
lookup function: five macro keys are written first, then every configured
micronutrient key is assigned (overwriting a macro key on collision, as the
second dict store would). -/
def _compute_daily_comparison (t : Targets) (logs : List Snapshot)
    (k : String) : Option Cmp :=
  match t.micronutrient_targets.lookup k with
  | some mt => some (microCmp (orQ (totalMicro logs k) 0) mt)
  | none =>
      if k = "calories" then
        some (macroCmp (totalCalories logs) t.calories_target)
      else if k = "protein" then
        some (macroCmp (totalMacro logs "protein" "protein_g") t.protein_g_target)
      else if k = "carbs" then
        some (macroCmp (totalMacro logs "carbs" "carbs_g") t.carbs_g_target)
      else if k = "fat" then
        some (macroCmp (totalMacro logs "fat" "fat_g") t.fat_g_target)
      else if k = "fiber" then
        some (macroCmp (totalMacro logs "fiber" "fiber_g") t.fiber_g_target)
      else none

/-- The formula the specification states for every comparison entry:
`pct = 100 * consumed / max(target, 1)`.  Written from the spec's words, to
be compared with the source's `microCmp`/`macroCmp`. -/
def specPct (consumed target : ℚ) : ℚ := 100 * consumed / max target 1

/-! ## Criteria evaluator and catalog (`achievements_engine.py`) -/

/-- The `criteria` JSON dict of an achievement as the tagged variant the
engine dispatches on (`criteria.get("type")`); dict payloads become typed
fields; any other / missing type is `other` and never satisfied. -/
inductive Criterion where
  | streak (target : ℤ)
  | level (target : ℤ)
  | healthify_count (target : ℤ)
  | meal_plan_count (target : ℤ)
  | grocery_count (target : ℤ)
  | saved_recipe_count (target : ℤ)
  | cuisines_explored (target : ℤ)
  | nutrition_streak (target : ℤ)
  | bronze_days (target : ℤ)
  | silver_days (target : ℤ)
  | gold_days (target : ℤ)
  | food_log_count (target : ℤ)
  | weekly_nutrient_hit (nutrient : String) (days_required : ℤ)
  | macro_master_week (days_required : ℤ)
  | whole_food_week (meal_count : ℤ)
  | other
  deriving Repr, DecidableEq

/-- One entry of the `ACHIEVEMENT_DEFS` literal. -/
structure AchDef where
  name : String
  description : String
  icon : String
  xp_reward : ℤ
  category : String
  criteria : Criterion
  deriving Repr, DecidableEq

/-- The fixed `ACHIEVEMENT_DEFS` catalog (`achievements_engine.py`
lines 42-288). -/
def ACHIEVEMENT_DEFS : List AchDef :=
  [⟨"First Healthify", "Transform your first food into a whole-food version.",
    "sparkles", 50, "chat", .healthify_count 1⟩,
   ⟨"Healthify Regular", "Healthify 10 different foods.",
    "sparkles", 150, "chat", .healthify_count 10⟩,
   ⟨"Healthify Master", "Healthify 50 different foods.",
    "sparkles", 500, "chat", .healthify_count 50⟩,
   ⟨"Meal Planner", "Create your first meal plan.",
    "restaurant", 200, "planning", .meal_plan_count 1⟩,
   ⟨"Week Warrior", "Generate 4 weekly meal plans.",
    "calendar", 400, "planning", .meal_plan_count 4⟩,
   ⟨"Grocery Pro", "Generate 3 grocery lists.",
    "cart", 150, "shopping", .grocery_count 3⟩,
   ⟨"Recipe Collector", "Save 5 recipes to your collection.",
    "bookmark", 100, "discovery", .saved_recipe_count 5⟩,
   ⟨"Recipe Hoarder", "Save 25 recipes to your collection.",
    "library", 300, "discovery", .saved_recipe_count 25⟩,
   ⟨"Food Explorer", "Browse recipes from 5 different cuisines.",
    "earth", 100, "discovery", .cuisines_explored 5⟩,
   ⟨"World Traveler", "Browse recipes from 10 different cuisines.",
    "airplane", 250, "discovery", .cuisines_explored 10⟩,
   ⟨"Streak Starter", "Maintain a 3-day streak.",
    "flame", 100, "consistency", .streak 3⟩,
   ⟨"Streak Master", "Maintain a 7-day streak.",
    "flame", 300, "consistency", .streak 7⟩,
   ⟨"Streak Legend", "Maintain a 30-day streak.",
    "medal", 1000, "consistency", .streak 30⟩,
   ⟨"First Steps", "Reach Level 2.",
    "star", 50, "progression", .level 2⟩,
   ⟨"Rising Star", "Reach Level 5.",
    "star", 200, "progression", .level 5⟩,
   ⟨"Elite Chef", "Reach Level 10.",
    "trophy", 500, "progression", .level 10⟩,
   ⟨"Bronze Eater", "Achieve a nutrition score ≥ 60 for 3 consecutive days.",
    "nutrition", 150, "nutrition", .nutrition_streak 3⟩,
   ⟨"Silver Plate", "Achieve a nutrition score ≥ 60 for 7 consecutive days.",
    "nutrition", 400, "nutrition", .nutrition_streak 7⟩,
   ⟨"Golden Fork", "Achieve a nutrition score ≥ 60 for 14 consecutive days.",
    "nutrition", 800, "nutrition", .nutrition_streak 14⟩,
   ⟨"Diamond Diet", "Achieve a nutrition score ≥ 60 for 30 consecutive days.",
    "nutrition", 1500, "nutrition", .nutrition_streak 30⟩,
   ⟨"First Bronze Day", "Score ≥ 60 on your daily nutrition for the first time.",
    "ribbon", 100, "nutrition", .bronze_days 1⟩,
   ⟨"Silver Standard", "Score ≥ 75 on your daily nutrition 5 times.",
    "ribbon", 300, "nutrition", .silver_days 5⟩,
   ⟨"Gold Plate Club", "Score ≥ 90 on your daily nutrition 3 times.",
    "ribbon", 500, "nutrition", .gold_days 3⟩,
   ⟨"First Log", "Log your first meal in the chronometer.",
    "create", 50, "nutrition", .food_log_count 1⟩,
   ⟨"Meal Logger", "Log 50 meals in the chronometer.",
    "create", 250, "nutrition", .food_log_count 50⟩,
   ⟨"Nutrition Nerd", "Log 200 meals in the chronometer.",
    "create", 600, "nutrition", .food_log_count 200⟩,
   ⟨"Iron Week", "Hit your iron target 5 out of 7 days this week.",
    "shield-checkmark", 300, "nutrition", .weekly_nutrient_hit "iron_mg" 5⟩,
   ⟨"Macro Master", "All macros within 10% of targets for a full week.",
    "analytics", 500, "nutrition", .macro_master_week 7⟩,
   ⟨"Whole Food Warrior", "Log 21 meals this week, all from recipes.",
    "leaf", 400, "nutrition", .whole_food_week 21⟩]

/-- One iteration of the `seed_achievements` loop (lines 295-307): skip a
definition whose name is in the snapshotted `existing` set, otherwise insert
the row and bump `added`. -/
def seedStep (existing : List String) (acc : List AchDef × ℕ)
    (defn : AchDef) : List AchDef × ℕ :=
  if defn.name ∈ existing then acc
  else (acc.1 ++ [defn], acc.2 + 1)

/-- The state-and-count effect of `seed_achievements` (lines 291-310): the
existing-name set is snapshotted once, then each catalog entry whose name is
not in it is appended and counted. -/
def seed_achievements (rows : List AchDef) : List AchDef × ℕ :=
  ACHIEVEMENT_DEFS.foldl (seedStep (rows.map AchDef.name)) (rows, 0)

/-- The value a call to the Python `seed_achievements` evaluates to: the
function body has no `return` statement, so it returns `None` — never the
inserted count. -/
def seed_achievements_ret (_rows : List AchDef) : Option ℕ := none

/-- One `daily_nutrition_summaries` row as the weekly checks read it: the
date, the stored score, and the per-nutrient `pct` values of
`comparison_json` (the only comparison field those checks access). -/
structure DailySummary where
  date : ℤ
  daily_score : ℚ
  pcts : List (String × ℚ)
  deriving Repr, DecidableEq

/-- `(comp.get(nutrient, {})).get("pct", 0) or 0` for one summary row. -/
def summaryPct (s : DailySummary) (nutrient : String) : ℚ :=
  (s.pcts.lookup nutrient).getD 0

/-- One `food_logs` row as the evaluator reads it. -/
structure FoodRow where
  date : ℤ
  source_type : String
  deriving Repr, DecidableEq

/-- Collaborator data the evaluator queries (read-only within a pass):
`utcnow().date()`, this user's nutrition summaries and food logs, and the
sibling-module row counts. -/
structure Env where
  nowDay : ℤ
  summaries : List DailySummary
  foodRows : List FoodRow
  mealPlanCount : ℤ
  groceryCount : ℤ
  savedRecipeCount : ℤ
  cuisinesExplored : ℤ
  deriving Repr, DecidableEq

/-- `_count_nutrition_days` (lines 400-405). -/
def _count_nutrition_days (env : Env) (min_score : ℚ) : ℕ :=
  (env.summaries.filter fun s => s.daily_score ≥ min_score).length

/-- `_check_weekly_nutrient` (lines 408-420). -/
def _check_weekly_nutrient (env : Env) (nutrient : String)
    (days_required : ℤ) : Bool :=
  let week_ago := env.nowDay - 7
  let hits := (env.summaries.filter fun s =>
    s.date ≥ week_ago ∧ summaryPct s nutrient ≥ 100).length
  (hits : ℤ) ≥ days_required

/-- `_check_macro_master` (lines 423-441). -/
def _check_macro_master (env : Env) (days_required : ℤ) : Bool :=
  let week_ago := env.nowDay - 7
  let perfect_days := (env.summaries.filter fun s =>
    s.date ≥ week_ago ∧
    ∀ m ∈ ["protein", "carbs", "fat", "fiber"],
      90 ≤ summaryPct s m ∧ summaryPct s m ≤ 110).length
  (perfect_days : ℤ) ≥ days_required

/-- `_check_whole_food_week` (lines 444-452). -/
def _check_whole_food_week (env : Env) (meal_count : ℤ) : Bool :=
  let week_ago := env.nowDay - 7
  let recipe_logs := (env.foodRows.filter fun f =>
    f.date ≥ week_ago ∧ f.source_type ∈ ["recipe", "cook_mode", "meal_plan"]).length
  (recipe_logs : ℤ) ≥ meal_count

/-- `_count_xp_transactions` (lines 588-592): ledger rows whose reason
matches `p%`. -/
def _count_xp_transactions (ledger : List XPTx) (p : String) : ℕ :=
  (ledger.filter fun t => p.data.isPrefixOf t.reason.data).length

/-- One `achievements` row as `check_achievements` uses it: its primary key,
unique name, reward and criterion (the display fields it merely copies into
the output dicts are omitted). -/
structure Ach where
  id : ℕ
  name : String
  xp_reward : ℤ
  criteria : Criterion
  deriving Repr, DecidableEq

/-- The optional `context` dict of pre-computed counters passed to
`check_achievements`; a `none` field is resolved by querying the
collaborator (the code either pre-populates the dict or falls back at the
use site — both reduce to this coalescing). -/
structure Ctx where
  healthify_count : Option ℤ
  meal_plan_count : Option ℤ
  grocery_count : Option ℤ
  saved_recipe_count : Option ℤ
  cuisines_explored : Option ℤ
  food_log_count : Option ℤ
  deriving Repr, DecidableEq

/-- The empty context (`context = None`). -/
def noCtx : Ctx := ⟨none, none, none, none, none, none⟩

/-- The criterion dispatch of `check_achievements` (lines 505-554): whether
one criterion is currently met.  `user_streak` is `user.current_streak or 0`,
`nsv` the nutrition-streak row's `current_streak` (0 when absent), `xp` the
user's cached XP *at this point of the pass*, and `ledger` the session's
transaction log at this point (the healthify fallback counts it). -/
def metCrit (env : Env) (ctx : Ctx) (user_streak nsv : ℤ) (xp : ℤ)
    (ledger : List XPTx) : Criterion → Bool
  | .streak t => decide (user_streak ≥ t)
  | .level t => decide (xp.fdiv 1000 + 1 ≥ t)
  | .healthify_count t =>
      decide (ctx.healthify_count.getD (_count_xp_transactions ledger "healthify") ≥ t)
  | .meal_plan_count t => decide (ctx.meal_plan_count.getD env.mealPlanCount ≥ t)
  | .grocery_count t => decide (ctx.grocery_count.getD env.groceryCount ≥ t)
  | .saved_recipe_count t => decide (ctx.saved_recipe_count.getD env.savedRecipeCount ≥ t)
  | .cuisines_explored t => decide (ctx.cuisines_explored.getD env.cuisinesExplored ≥ t)
  | .nutrition_streak t => decide (nsv ≥ t)
  | .bronze_days t => decide ((_count_nutrition_days env 60 : ℤ) ≥ t)
  | .silver_days t => decide ((_count_nutrition_days env 75 : ℤ) ≥ t)
  | .gold_days t => decide ((_count_nutrition_days env 90 : ℤ) ≥ t)
  | .food_log_count t => decide (ctx.food_log_count.getD (env.foodRows.length : ℤ) ≥ t)
  | .weekly_nutrient_hit n d => _check_weekly_nutrient env n d
  | .macro_master_week d => _check_macro_master env d
  | .whole_food_week m => _check_whole_food_week env m
  | .other => false

/-- The per-user game state a `check_achievements` pass reads and writes:
cached XP, this user's `user_achievements` rows (by achievement id), the XP
ledger, and the newly-unlocked output list (by achievement id). -/
structure CheckState where
  xp_points : ℤ
  uaRows : List ℕ
  ledger : List XPTx
  newly : List ℕ
  deriving Repr, DecidableEq

/-- One loop iteration of `check_achievements` (lines 501-580): skip
achievements whose id is in the `unlocked_ids` snapshot, otherwise test the
criterion against the *current* state and, when met, insert the
`UserAchievement` row, bump the cached XP, append the
`achievement:<name>` transaction and report the unlock. -/
def checkStep (env : Env) (ctx : Ctx) (user_streak nsv : ℤ) (now : ℚ)
    (unlocked : List ℕ) (s : CheckState) (a : Ach) : CheckState :=
  if a.id ∈ unlocked then s
  else if metCrit env ctx user_streak nsv s.xp_points s.ledger a.criteria then
    { xp_points := s.xp_points + a.xp_reward
      uaRows := s.uaRows ++ [a.id]
      ledger := s.ledger ++ [⟨a.xp_reward, "achievement:" ++ a.name, now⟩]
      newly := s.newly ++ [a.id] }
  else s

/-- `check_achievements` (lines 455-585): snapshot the unlocked-id set from
the existing rows, then run the loop over the whole catalog, starting from
an empty newly-unlocked list. -/
def check_achievements (env : Env) (ctx : Ctx) (user_streak nsv : ℤ)
    (now : ℚ) (catalog : List Ach) (s0 : CheckState) : CheckState :=
  catalog.foldl (checkStep env ctx user_streak nsv now s0.uaRows)
    { s0 with newly := [] }

/-! ## Theorems -/

/-- C6 counterexample: `award_xp` applies a negative amount as-is, so the
total XP drops (1000 → 900) and the derived level drops (2 → 1), refuting
"total XP after the operation is greater than or equal to the total XP
before it, and the derived level never decreases; a negative XP amount
supplied by a caller is clamped rather than applied". -/
theorem award_xp_negative_counterexample :
    (award_xp 1000 [] (-100) "test" 0).xp_points < 1000 ∧
    (award_xp 1000 [] (-100) "test" 0).xp_points.fdiv 1000 + 1 <
      (1000 : ℤ).fdiv 1000 + 1 := by decide

/-- C6 (amended): for every *non-negative* amount — the only amounts the
engine itself passes — `award_xp` never decreases the cached XP total and
never decreases the derived level; a negative caller-supplied amount is
applied unclamped (see the counterexample). -/
theorem award_xp_monotone (xp0 : ℤ) (ledger : List XPTx) (amount : ℤ)
    (reason : String) (now : ℚ) (h : 0 ≤ amount) :
    xp0 ≤ (award_xp xp0 ledger amount reason now).xp_points ∧
    xp0.fdiv 1000 + 1 ≤
      (award_xp xp0 ledger amount reason now).xp_points.fdiv 1000 + 1 := by
  refine ⟨by simp [award_xp]; omega, ?_⟩
  have hx : (award_xp xp0 ledger amount reason now).xp_points = xp0 + amount := rfl
  rw [hx, Int.fdiv_eq_ediv _ (by omega), Int.fdiv_eq_ediv _ (by omega)]
  have := Int.ediv_le_ediv (by omega : (0:ℤ) < 1000) (by omega : xp0 ≤ xp0 + amount)
  omega

/-- C6 witness: awarding 100 XP at 950 XP raises the total to 1050 and the
level from 1 to 2 — the monotonicity theorem applied at that input. -/
theorem award_xp_monotone_witness :
    950 ≤ (award_xp 950 [] 100 "daily_streak" 0).xp_points ∧
    (950 : ℤ).fdiv 1000 + 1 ≤
      (award_xp 950 [] 100 "daily_streak" 0).xp_points.fdiv 1000 + 1 :=
  award_xp_monotone 950 [] 100 "daily_streak" 0 (by decide)

/-- C7 counterexample: `_generate_quests` reseeds and advances the
process-global `random` generator — starting from an arbitrary ambient
state, the global state after the call is the freshly seeded one with three
draws consumed, not the incoming state — refuting "the selection never
reads from or mutates any shared/global random generator state". -/
theorem generate_quests_mutates_global_rng :
    (_generate_quests (fun _ _ _ => 0) "u1" "2024-01-01" none
        ⟨"ambient", 7⟩).2 = ⟨"u1-2024-01-01", 3⟩ ∧
    ((⟨"u1-2024-01-01", 3⟩ : RandState) ≠ ⟨"ambient", 7⟩) := by
  constructor
  · rfl
  · decide

/-- C7 (amended): quest selection is deterministic for a given
`(user_id, date)` — for any mathematical content of the generator stream,
the three generated quests (titles, targets, everything) are identical for
any two invocations, whatever global generator state each one starts from
(hence also across a process restart); but the call does reseed and advance
the shared global generator (see the counterexample). -/
theorem generate_quests_deterministic (src : RandSrc)
    (userId dateIso : String) (targets : Option (ℚ × ℚ))
    (g g' : RandState) :
    (_generate_quests src userId dateIso targets g).1 =
      (_generate_quests src userId dateIso targets g').1 := rfl

/-- C8 counterexample: the endpoint accepts an arbitrary float delta; with
`amount = -1` a quest at `current_value = 1` drops to 0, refuting
"current_value is non-decreasing across calls". -/
theorem quest_progress_negative_counterexample :
    (update_quest_progress
        ⟨"logging", "Log All 3 Meals", "Log breakfast, lunch, and dinner.",
          3, 1, 60, false, none, "log_3_meals"⟩
        0 [] (-1) 0).current_value = 0 ∧ (0 : ℚ) < 1 := by
  refine ⟨?_, by norm_num⟩
  norm_num [update_quest_progress, min_def]

/-- Evaluation of `update_quest_progress` on an already-completed quest. -/
lemma uqp_completed (q : DailyQuest) (xp0 : ℤ) (ledger : List XPTx)
    (amount now : ℚ) (hc : q.completed = true) :
    update_quest_progress q xp0 ledger amount now =
      ⟨q, xp0, ledger, q.current_value, q.completed, 0⟩ := by
  simp [update_quest_progress, hc]

/-- Evaluation of `update_quest_progress` when the capped new value reaches
the target. -/
lemma uqp_reach (q : DailyQuest) (xp0 : ℤ) (ledger : List XPTx)
    (amount now : ℚ) (hc : q.completed = false)
    (hr : min q.target_value (q.current_value + amount) ≥ q.target_value) :
    update_quest_progress q xp0 ledger amount now =
      ⟨{ q with
          current_value := min q.target_value (q.current_value + amount)
          completed := true
          completed_at := some now },
        xp0 + q.xp_reward,
        ledger ++ [⟨q.xp_reward, "quest:" ++ q.title, now⟩],
        min q.target_value (q.current_value + amount), true, q.xp_reward⟩ := by
  simp [update_quest_progress, hc, hr, award_xp]

/-- Evaluation of `update_quest_progress` when the capped new value stays
below the target. -/
lemma uqp_below (q : DailyQuest) (xp0 : ℤ) (ledger : List XPTx)
    (amount now : ℚ) (hc : q.completed = false)
    (hr : ¬ min q.target_value (q.current_value + amount) ≥ q.target_value) :
    update_quest_progress q xp0 ledger amount now =
      ⟨{ q with current_value := min q.target_value (q.current_value + amount) },
        xp0, ledger,
        min q.target_value (q.current_value + amount), false, 0⟩ := by
  simp [update_quest_progress, hc, hr]

/-- C8 (amended): for every *non-negative* delta, quest progress is
non-decreasing and capped at the target; the first update that reaches the
target completes the quest, stamps it and fires exactly one
`quest:<title>` award; updates to a completed quest change nothing and
report zero XP.  A negative delta decreases `current_value` (see the
counterexample). -/
theorem quest_progress_monotone (q : DailyQuest) (xp0 : ℤ)
    (ledger : List XPTx) (amount : ℚ) (now : ℚ)
    (h0 : 0 ≤ amount) (hcap : q.current_value ≤ q.target_value) :
    q.current_value ≤ (update_quest_progress q xp0 ledger amount now).quest.current_value ∧
    (update_quest_progress q xp0 ledger amount now).quest.current_value ≤ q.target_value ∧
    (q.completed = true →
      (update_quest_progress q xp0 ledger amount now).quest = q ∧
      (update_quest_progress q xp0 ledger amount now).ledger = ledger ∧
      (update_quest_progress q xp0 ledger amount now).xp_gained = 0) ∧
    (q.completed = false →
      ((update_quest_progress q xp0 ledger amount now).completed = true →
        (update_quest_progress q xp0 ledger amount now).quest.completed = true ∧
        (update_quest_progress q xp0 ledger amount now).quest.completed_at = some now ∧
        (update_quest_progress q xp0 ledger amount now).xp_gained = q.xp_reward ∧
        (update_quest_progress q xp0 ledger amount now).ledger =
          ledger ++ [⟨q.xp_reward, "quest:" ++ q.title, now⟩]) ∧
      ((update_quest_progress q xp0 ledger amount now).completed = false →
        (update_quest_progress q xp0 ledger amount now).xp_gained = 0 ∧
        (update_quest_progress q xp0 ledger amount now).ledger = ledger)) := by
  have hle : q.current_value ≤ min q.target_value (q.current_value + amount) :=
    le_min hcap (by linarith)
  have hub : min q.target_value (q.current_value + amount) ≤ q.target_value :=
    min_le_left _ _
  by_cases hc : q.completed = true
  · rw [uqp_completed q xp0 ledger amount now hc]
    exact ⟨le_refl _, hcap, fun _ => ⟨rfl, rfl, rfl⟩,
      fun hf => absurd hc (by simp [hf])⟩
  · have hc' : q.completed = false := by simpa using hc
    by_cases hr : min q.target_value (q.current_value + amount) ≥ q.target_value
    · rw [uqp_reach q xp0 ledger amount now hc' hr]
      exact ⟨hle, hub, fun ht => absurd ht (by simp [hc']),
        fun _ => ⟨fun _ => ⟨rfl, rfl, rfl, rfl⟩, fun hf => absurd hf (by simp)⟩⟩
    · rw [uqp_below q xp0 ledger amount now hc' hr]
      exact ⟨hle, hub, fun ht => absurd ht (by simp [hc']),
        fun _ => ⟨fun ht => absurd ht (by simp), fun _ => ⟨rfl, rfl⟩⟩⟩

/-- C8 witness: a fresh "Score Bronze+" quest at 59/60 advanced by 1 — the
monotonicity theorem applied at that input. -/
theorem quest_progress_monotone_witness :
    (59 : ℚ) ≤ (update_quest_progress
        ⟨"quality", "Score Bronze+",
          "Achieve a daily nutrition score of 60 or higher.",
          60, 59, 50, false, none, "score_bronze"⟩ 0 [] 1 0).quest.current_value :=
  (quest_progress_monotone
    ⟨"quality", "Score Bronze+",
      "Achieve a daily nutrition score of 60 or higher.",
      60, 59, 50, false, none, "score_bronze"⟩ 0 [] 1 0
    (by norm_num) (by norm_num)).1

/-- `seed_achievements`'s loop, with the `existing` snapshot fixed, appends
exactly the definitions whose names are missing and counts them. -/
lemma seedFold (ex : List String) :
    ∀ (defs : List AchDef) (acc : List AchDef) (n : ℕ),
      defs.foldl (seedStep ex) (acc, n) =
        (acc ++ defs.filter (fun d => decide (d.name ∉ ex)),
         n + (defs.filter (fun d => decide (d.name ∉ ex))).length)
  | [], acc, n => by simp
  | d :: ds, acc, n => by
      by_cases h : d.name ∈ ex
      · simp only [List.foldl_cons, seedStep, if_pos h, List.filter_cons,
          seedFold ex ds acc n]
        simp [h]
      · simp only [List.foldl_cons, seedStep, if_neg h, List.filter_cons,
          seedFold ex ds (acc ++ [d]) (n + 1)]
        simp [h]
        omega

/-- C9 counterexample: the Python `seed_achievements` has no `return`
statement, so a first call on an empty catalog returns `None` even though
it inserts all 29 definitions — refuting "returns the integer count of
definitions actually inserted". -/
theorem seed_achievements_returns_none :
    seed_achievements_ret [] = none ∧
    (seed_achievements []).2 = 29 ∧
    seed_achievements_ret [] ≠ some (seed_achievements []).2 := by
  refine ⟨rfl, by decide, by simp [seed_achievements_ret]⟩

/-- C9 (amended): seeding is an idempotent insert-if-missing by name — a
call appends exactly the catalog definitions whose names are absent,
leaving existing rows unmodified, and the *internal* `added` counter is the
number inserted (the whole catalog on an empty table, 0 on an immediate
repeat) — but the function returns `None`, not that count (see the
counterexample). -/
theorem seed_achievements_idempotent (rows : List AchDef) :
    (seed_achievements rows).1 =
      rows ++ ACHIEVEMENT_DEFS.filter
        (fun d => decide (d.name ∉ rows.map AchDef.name)) ∧
    (seed_achievements rows).2 =
      (ACHIEVEMENT_DEFS.filter
        (fun d => decide (d.name ∉ rows.map AchDef.name))).length ∧
    seed_achievements (seed_achievements rows).1 = ((seed_achievements rows).1, 0) ∧
    (seed_achievements []).2 = ACHIEVEMENT_DEFS.length ∧
    seed_achievements_ret rows = none := by
  have h1 := seedFold (rows.map AchDef.name) ACHIEVEMENT_DEFS rows 0
  refine ⟨by rw [seed_achievements, h1], by rw [seed_achievements, h1]; omega, ?_, by decide, rfl⟩
  have hrows : (seed_achievements rows).1 =
      rows ++ ACHIEVEMENT_DEFS.filter
        (fun d => decide (d.name ∉ rows.map AchDef.name)) := by
    rw [seed_achievements, h1]
  have hnil : ACHIEVEMENT_DEFS.filter
      (fun d => decide (d.name ∉ ((seed_achievements rows).1.map AchDef.name))) = [] := by
    rw [List.filter_eq_nil_iff]
    intro d hd
    simp only [decide_eq_true_eq, not_not, Decidable.not_not]
    rw [hrows]
    by_cases hmem : d.name ∈ rows.map AchDef.name
    · simp [hmem]
    · have : d ∈ ACHIEVEMENT_DEFS.filter
          (fun d => decide (d.name ∉ rows.map AchDef.name)) :=
        List.mem_filter.mpr ⟨hd, by simpa using hmem⟩
      simp only [List.map_append, List.mem_append]
      exact Or.inr (List.mem_map.mpr ⟨d, this, rfl⟩)
  rw [seed_achievements, seedFold ((seed_achievements rows).1.map AchDef.name)
    ACHIEVEMENT_DEFS (seed_achievements rows).1 0, hnil]
  simp

/-- C3 counterexample: for the default copper target 0.9, the code computes
`pct = consumed / (target or 1) * 100`, dividing by 0.9 itself, while the
claimed formula `100 * consumed / max(target, 1)` divides by 1: consuming
0.9 of copper yields pct 100 in the code but 90 under the claim. -/
theorem comparison_pct_spec_counterexample :
    _compute_daily_comparison
        ⟨2200, 130, 250, 75, 30, [("copper_mg", 9/10)]⟩
        [[("copper_mg", 9/10)]] "copper_mg" =
      some ⟨9/10, 9/10, 100⟩ ∧
    specPct (9/10) (9/10) = 90 ∧
    ¬ ((100 : ℚ) = specPct (9/10) (9/10)) := by
  refine ⟨?_, ?_, ?_⟩
  · simp only [_compute_daily_comparison, microCmp, orQ, totalMicro, snapGet,
      List.lookup, List.map, List.sum_cons, List.sum_nil, Option.some.injEq,
      Cmp.mk.injEq]
    norm_num
  · norm_num [specPct, max_def]
  · norm_num [specPct, max_def]

/-- C3 (amended): for every nutrient with a configured target — the five
macros and every configured micronutrient — the comparison entry has
`pct = 100 * consumed / D` where the divisor `D` is the Python-falsy
coalesced target (`target` itself when nonzero — including fractional
targets such as 0.9 — and 1 when the target is 0); the divisor is *not*
`max(target, 1)` (see the counterexample).  A macro key is stated under the
hypothesis that no configured micronutrient shadows it (the dict write
order makes a same-named micronutrient overwrite the macro entry). -/
theorem comparison_pct_formula (t : Targets) (logs : List Snapshot)
    (k : String) (mt : ℚ)
    (h : t.micronutrient_targets.lookup k = some mt) :
    _compute_daily_comparison t logs k =
      some ⟨orQ (totalMicro logs k) 0, orQ mt 1,
        100 * orQ (totalMicro logs k) 0 / (if mt = 0 then 1 else mt)⟩ ∧
    (t.micronutrient_targets.lookup "calories" = none →
      _compute_daily_comparison t logs "calories" =
        some ⟨totalCalories logs, orQ t.calories_target 0,
          100 * totalCalories logs /
            (if t.calories_target = 0 then 1 else t.calories_target)⟩) ∧
    (t.micronutrient_targets.lookup "protein" = none →
      _compute_daily_comparison t logs "protein" =
        some ⟨totalMacro logs "protein" "protein_g", orQ t.protein_g_target 0,
          100 * totalMacro logs "protein" "protein_g" /
            (if t.protein_g_target = 0 then 1 else t.protein_g_target)⟩) ∧
    (t.micronutrient_targets.lookup "carbs" = none →
      _compute_daily_comparison t logs "carbs" =
        some ⟨totalMacro logs "carbs" "carbs_g", orQ t.carbs_g_target 0,
          100 * totalMacro logs "carbs" "carbs_g" /
            (if t.carbs_g_target = 0 then 1 else t.carbs_g_target)⟩) ∧
    (t.micronutrient_targets.lookup "fat" = none →
      _compute_daily_comparison t logs "fat" =
        some ⟨totalMacro logs "fat" "fat_g", orQ t.fat_g_target 0,
          100 * totalMacro logs "fat" "fat_g" /
            (if t.fat_g_target = 0 then 1 else t.fat_g_target)⟩) ∧
    (t.micronutrient_targets.lookup "fiber" = none →
      _compute_daily_comparison t logs "fiber" =
        some ⟨totalMacro logs "fiber" "fiber_g", orQ t.fiber_g_target 0,
          100 * totalMacro logs "fiber" "fiber_g" /
            (if t.fiber_g_target = 0 then 1 else t.fiber_g_target)⟩) := by
  have key : ∀ a b : ℚ, a / b * 100 = 100 * a / b := fun a b => by ring
  refine ⟨?_, fun hp => ?_, fun hp => ?_, fun hp => ?_, fun hp => ?_,
    fun hp => ?_⟩
  · simp only [_compute_daily_comparison, h, microCmp, orQ, Option.some.injEq,
      Cmp.mk.injEq]
    exact ⟨trivial, trivial, key _ _⟩
  all_goals
    simp only [_compute_daily_comparison, hp, macroCmp, orQ, String.reduceEq,
      reduceIte, Option.some.injEq, Cmp.mk.injEq]
    exact ⟨trivial, trivial, key _ _⟩

/-- C3 witness: an iron target of 18 with 9 consumed gives pct 50, and the
fiber macro (target 30, consumed 15) also gives pct 50 — the formula
theorem applied at that input for both a micronutrient and a macro. -/
theorem comparison_pct_formula_witness :
    _compute_daily_comparison ⟨2200, 130, 250, 75, 30, [("iron_mg", 18)]⟩
        [[("iron_mg", 9), ("fiber", 15)]] "iron_mg" = some ⟨9, 18, 50⟩ ∧
    _compute_daily_comparison ⟨2200, 130, 250, 75, 30, [("iron_mg", 18)]⟩
        [[("iron_mg", 9), ("fiber", 15)]] "fiber" = some ⟨15, 30, 50⟩ := by
  have h := comparison_pct_formula ⟨2200, 130, 250, 75, 30, [("iron_mg", 18)]⟩
    [[("iron_mg", 9), ("fiber", 15)]] "iron_mg" 18 (by decide)
  have h1 := h.1
  have h2 := h.2.2.2.2.2 (by decide)
  constructor
  · rw [h1]
    norm_num [orQ, totalMicro, snapGet, Snapshot]
  · rw [h2]
    simp [totalMacro, snapGet2, snapGet, orQ, List.lookup]
    norm_num

/-- The streak row written by `update_nutrition_streak` is exactly
`streakStep` of the (lazily created) row. -/
lemma update_ns_eq (ns0 : Option NS) (ledger : List XPTx) (xp0 : ℤ)
    (daily_score : ℚ) (today : ℤ) (now : ℚ) :
    (update_nutrition_streak ns0 ledger xp0 daily_score today now).ns =
      streakStep (ns0.getD freshNS) daily_score today := by
  rcases htf : tierFor daily_score with ⟨txp, tlbl⟩
  simp only [update_nutrition_streak, htf]
  split <;> first | rfl | split <;> rfl

/-- After a qualifying `streakStep`, the last qualifying date is today, the
current streak is bounded by the longest, and the threshold is untouched. -/
lemma streakStep_qual_inv (ns : NS) (sc : ℚ) (d : ℤ)
    (hq : effThreshold ns ≤ sc) :
    (streakStep ns sc d).last_qualifying_date = some d ∧
    (streakStep ns sc d).current_streak ≤ (streakStep ns sc d).longest_streak ∧
    (streakStep ns sc d).threshold = ns.threshold := by
  rcases hlq : ns.last_qualifying_date with _ | lq <;>
    simp only [streakStep, hlq, ge_iff_le, if_pos hq] <;>
    split_ifs <;> simp_all

/-- A qualifying `streakStep` on a day that is already the stored
`last_qualifying_date`, with `current ≤ longest`, changes nothing. -/
lemma streakStep_same_day_qual (ns : NS) (sc : ℚ) (d : ℤ)
    (hq : effThreshold ns ≤ sc) (hlq : ns.last_qualifying_date = some d)
    (hle : ns.current_streak ≤ ns.longest_streak) :
    streakStep ns sc d = ns := by
  simp only [streakStep, hlq, ge_iff_le, if_pos hq, sub_self]
  norm_num
  rw [if_neg (not_lt.mpr hle), ← hlq]

/-- A non-qualifying `streakStep` on a day equal to the stored
`last_qualifying_date` changes nothing. -/
lemma streakStep_same_day_nonqual (ns : NS) (sc : ℚ) (d : ℤ)
    (hnq : sc < effThreshold ns) (hlq : ns.last_qualifying_date = some d) :
    streakStep ns sc d = ns := by
  simp only [streakStep, hlq, ge_iff_le, if_neg (not_le.mpr hnq)]
  rw [if_neg]
  simp

/-- C4: the nutrition-streak update is a same-day no-op in both directions:
a second qualifying call for the same day leaves the streak row exactly as
the first call left it, and a non-qualifying call on a day whose
`last_qualifying_date` is already today leaves the row untouched. -/
theorem streak_same_day_reentrant (s : NS) (L : List XPTx) (x : ℤ)
    (sc sc2 : ℚ) (d : ℤ) (n1 n2 : ℚ) :
    (effThreshold s ≤ sc → effThreshold s ≤ sc2 →
      (update_nutrition_streak
          (some (update_nutrition_streak (some s) L x sc d n1).ns)
          (update_nutrition_streak (some s) L x sc d n1).ledger
          (update_nutrition_streak (some s) L x sc d n1).xp_points
          sc2 d n2).ns =
        (update_nutrition_streak (some s) L x sc d n1).ns) ∧
    (s.last_qualifying_date = some d → sc2 < effThreshold s →
      (update_nutrition_streak (some s) L x sc2 d n2).ns = s) := by
  constructor
  · intro hq hq2
    rw [update_ns_eq, update_ns_eq]
    simp only [Option.getD_some]
    obtain ⟨h1, h2, h3⟩ := streakStep_qual_inv s sc d hq
    have hth : effThreshold (streakStep s sc d) = effThreshold s := by
      simp [effThreshold, h3]
    exact streakStep_same_day_qual _ sc2 d (hth ▸ hq2) h1 h2
  · intro hlq hnq
    rw [update_ns_eq]
    simp only [Option.getD_some]
    exact streakStep_same_day_nonqual s sc2 d hnq hlq

/-- C4 witness: the re-entrancy theorem applied at a fresh row with score 70
on day 0 (qualifying direction), and at a row whose last qualifying date is
already day 0 with score 10 (non-qualifying direction). -/
theorem streak_same_day_reentrant_witness :
    ((update_nutrition_streak
        (some (update_nutrition_streak (some freshNS) [] 0 70 0 0).ns)
        (update_nutrition_streak (some freshNS) [] 0 70 0 0).ledger
        (update_nutrition_streak (some freshNS) [] 0 70 0 0).xp_points
        70 0 0).ns =
      (update_nutrition_streak (some freshNS) [] 0 70 0 0).ns) ∧
    (update_nutrition_streak (some ⟨3, 5, some 0, 60⟩) [] 0 10 0 0).ns =
      ⟨3, 5, some 0, 60⟩ :=
  ⟨(streak_same_day_reentrant freshNS [] 0 70 70 0 0 0).1
      (by norm_num [effThreshold, freshNS]) (by norm_num [effThreshold, freshNS]),
    (streak_same_day_reentrant ⟨3, 5, some 0, 60⟩ [] 0 70 10 0 0 0).2
      rfl (by norm_num [effThreshold])⟩

/-- C5 counterexample: recomputing day 5 while a `nutrition_tier:%`
transaction exists with timestamp 7 (calendar day 7) skips the award —
the query's only bound is `created_at ≥ midnight of day 5` — even though no
tier transaction exists *on* calendar day 5, refuting "skipped exactly when
a tier transaction already exists for that user on that calendar day". -/
theorem tier_skip_window_counterexample :
    (update_nutrition_streak (some freshNS)
        [⟨50, "nutrition_tier:Bronze", 7⟩] 0 95 5 5).tier_xp = 0 ∧
    (update_nutrition_streak (some freshNS)
        [⟨50, "nutrition_tier:Bronze", 7⟩] 0 95 5 5).qualifies = true ∧
    (∀ t ∈ [(⟨50, "nutrition_tier:Bronze", (7 : ℚ)⟩ : XPTx)],
      ¬ ((5 : ℚ) ≤ t.created_at ∧ t.created_at < 5 + 1)) := by
  have hex : tierTxSince [⟨50, "nutrition_tier:Bronze", 7⟩] 5 = true := by decide
  refine ⟨?_, ?_, ?_⟩
  · simp only [update_nutrition_streak, hex, if_true]
    norm_num [effThreshold, freshNS]
  · simp only [update_nutrition_streak, hex, if_true]
    norm_num [effThreshold, freshNS]
  · intro t ht
    simp only [List.mem_singleton] at ht
    subst ht
    norm_num

/-- C5 (amended): on a qualifying day the tier bonus (200 Gold at score
≥ 90, else 100 Silver at ≥ 75, else 50 Bronze) is awarded exactly when *no*
`nutrition_tier:%` transaction with `created_at` at or after the start of
that calendar day exists — a time-window test bounded only from below, not
"on that calendar day" (see the counterexample). -/
theorem tier_award_characterization (ns0 : Option NS) (ledger : List XPTx)
    (xp0 : ℤ) (daily_score : ℚ) (today : ℤ) (now : ℚ)
    (hq : effThreshold (ns0.getD freshNS) ≤ daily_score) :
    (tierTxSince ledger today = true →
      (update_nutrition_streak ns0 ledger xp0 daily_score today now).tier_xp = 0 ∧
      (update_nutrition_streak ns0 ledger xp0 daily_score today now).tier_label = none ∧
      (update_nutrition_streak ns0 ledger xp0 daily_score today now).ledger = ledger ∧
      (update_nutrition_streak ns0 ledger xp0 daily_score today now).xp_points = xp0) ∧
    (tierTxSince ledger today = false →
      (update_nutrition_streak ns0 ledger xp0 daily_score today now).tier_xp =
        (tierFor daily_score).1 ∧
      (update_nutrition_streak ns0 ledger xp0 daily_score today now).tier_label =
        some (tierFor daily_score).2 ∧
      (update_nutrition_streak ns0 ledger xp0 daily_score today now).ledger =
        ledger ++ [⟨(tierFor daily_score).1,
          "nutrition_tier:" ++ (tierFor daily_score).2, now⟩] ∧
      (update_nutrition_streak ns0 ledger xp0 daily_score today now).xp_points =
        xp0 + (tierFor daily_score).1) ∧
    (90 ≤ daily_score → tierFor daily_score = (200, "Gold")) ∧
    (75 ≤ daily_score → daily_score < 90 → tierFor daily_score = (100, "Silver")) ∧
    (daily_score < 75 → tierFor daily_score = (50, "Bronze")) := by
  rcases htf : tierFor daily_score with ⟨txp, tlbl⟩
  have hqd : (decide (daily_score ≥ effThreshold (ns0.getD freshNS))) = true :=
    decide_eq_true hq
  refine ⟨fun hex => ?_, fun hnex => ?_, fun h90 => ?_, fun h75 h90 => ?_,
    fun h75 => ?_⟩
  · simp only [update_nutrition_streak, hqd, hex, if_true]
    simp
  · simp only [update_nutrition_streak, hqd, hnex, if_true, Bool.false_eq_true,
      if_false, htf, award_xp]
    simp
  · rw [← htf]; simp [tierFor, h90]
  · rw [← htf]; simp [tierFor, h75, not_le.mpr h90]
  · rw [← htf]
    have h90 : ¬ (90 : ℚ) ≤ daily_score := by intro hc; linarith
    simp [tierFor, h90, not_le.mpr h75]

/-- C5 witness: a fresh row, empty ledger, score 80 on day 0 — the tier
characterization applied there yields the 100 XP Silver award. -/
theorem tier_award_characterization_witness :
    (update_nutrition_streak (some freshNS) [] 0 80 0 0).tier_xp = 100 ∧
    (update_nutrition_streak (some freshNS) [] 0 80 0 0).tier_label =
      some "Silver" := by
  have h := tier_award_characterization (some freshNS) [] 0 80 0 0
    (by norm_num [effThreshold, freshNS])
  have h2 := h.2.1 (by decide)
  have h3 := h.2.2.2.1 (by norm_num) (by norm_num)
  exact ⟨by rw [h2.1, h3], by rw [h2.2.1, h3]⟩

/-- When every catalog entry is either already unlocked or unmet at the
current state, every loop iteration is the identity. -/
lemma checkFold_id (env : Env) (ctx : Ctx) (us nsv : ℤ) (now : ℚ)
    (u : List ℕ) :
    ∀ (cat : List Ach) (s : CheckState),
      (∀ a ∈ cat, a.id ∈ u ∨
        metCrit env ctx us nsv s.xp_points s.ledger a.criteria = false) →
      cat.foldl (checkStep env ctx us nsv now u) s = s
  | [], s, _ => rfl
  | a :: rest, s, h => by
      have hstep : checkStep env ctx us nsv now u s a = s := by
        rcases h a (List.mem_cons_self a rest) with hin | hmet
        · simp [checkStep, hin]
        · simp [checkStep, hmet]
      rw [List.foldl_cons, hstep]
      exact checkFold_id env ctx us nsv now u rest s
        (fun b hb => h b (List.mem_cons_of_mem a hb))

/-- C10: a `check_achievements` pass in which no not-yet-unlocked
achievement's criterion is satisfied leaves the cached XP, the
`UserAchievement` rows and the `XPTransaction` rows untouched and returns
the empty newly-unlocked list. -/
theorem no_criteria_met_frame (env : Env) (ctx : Ctx) (us nsv : ℤ)
    (now : ℚ) (catalog : List Ach) (s0 : CheckState)
    (h : ∀ a ∈ catalog, a.id ∉ s0.uaRows →
      metCrit env ctx us nsv s0.xp_points s0.ledger a.criteria = false) :
    (check_achievements env ctx us nsv now catalog s0).xp_points = s0.xp_points ∧
    (check_achievements env ctx us nsv now catalog s0).uaRows = s0.uaRows ∧
    (check_achievements env ctx us nsv now catalog s0).ledger = s0.ledger ∧
    (check_achievements env ctx us nsv now catalog s0).newly = [] := by
  have hid := checkFold_id env ctx us nsv now s0.uaRows catalog
    { s0 with newly := [] }
    (fun a ha => by
      by_cases hin : a.id ∈ s0.uaRows
      · exact Or.inl hin
      · exact Or.inr (h a ha hin))
  rw [check_achievements, hid]
  exact ⟨rfl, rfl, rfl, rfl⟩

/-- C10 witness: the frame theorem applied at a one-achievement catalog
("First Healthify", requiring one healthify) against a user with an empty
ledger and no activity. -/
theorem no_criteria_met_frame_witness :
    (check_achievements ⟨0, [], [], 0, 0, 0, 0⟩ noCtx 0 0 0
        [⟨1, "First Healthify", 50, .healthify_count 1⟩] ⟨0, [], [], []⟩).xp_points = 0 ∧
    (check_achievements ⟨0, [], [], 0, 0, 0, 0⟩ noCtx 0 0 0
        [⟨1, "First Healthify", 50, .healthify_count 1⟩] ⟨0, [], [], []⟩).uaRows = [] ∧
    (check_achievements ⟨0, [], [], 0, 0, 0, 0⟩ noCtx 0 0 0
        [⟨1, "First Healthify", 50, .healthify_count 1⟩] ⟨0, [], [], []⟩).ledger = [] ∧
    (check_achievements ⟨0, [], [], 0, 0, 0, 0⟩ noCtx 0 0 0
        [⟨1, "First Healthify", 50, .healthify_count 1⟩] ⟨0, [], [], []⟩).newly = [] :=
  no_criteria_met_frame ⟨0, [], [], 0, 0, 0, 0⟩ noCtx 0 0 0
    [⟨1, "First Healthify", 50, .healthify_count 1⟩] ⟨0, [], [], []⟩ (by decide)

/-- Ledger rows carrying one exact reason string. -/
def countReason (ledger : List XPTx) (r : String) : ℕ :=
  (ledger.filter fun t => t.reason = r).length

/-- Once an achievement id is in the snapshotted unlocked set, the whole
loop is transparent for it: its row count, its exact-reason transaction
count and its (non-)membership in the newly list are preserved, provided no
*other* (not-yet-unlocked) catalog entry shares its id or reason. -/
lemma checkFold_preserves (env : Env) (ctx : Ctx) (us nsv : ℤ) (now : ℚ)
    (u : List ℕ) (A : ℕ) (nm : String) (hA : A ∈ u) :
    ∀ (cat : List Ach) (s : CheckState),
      (∀ b ∈ cat, b.id ∉ u → b.id ≠ A ∧ ("achievement:" ++ b.name) ≠ nm) →
      ((cat.foldl (checkStep env ctx us nsv now u) s).uaRows.count A =
          s.uaRows.count A ∧
       countReason (cat.foldl (checkStep env ctx us nsv now u) s).ledger nm =
          countReason s.ledger nm ∧
       ((A ∈ (cat.foldl (checkStep env ctx us nsv now u) s).newly) ↔
          A ∈ s.newly))
  | [], s, _ => ⟨rfl, rfl, Iff.rfl⟩
  | b :: rest, s, h => by
      have hrest : ∀ c ∈ rest, c.id ∉ u →
          c.id ≠ A ∧ ("achievement:" ++ c.name) ≠ nm :=
        fun c hc => h c (List.mem_cons_of_mem b hc)
      rw [List.foldl_cons]
      by_cases hin : b.id ∈ u
      · rw [show checkStep env ctx us nsv now u s b = s by simp [checkStep, hin]]
        exact checkFold_preserves env ctx us nsv now u A nm hA rest s hrest
      · obtain ⟨hbid, hbnm⟩ := h b (List.mem_cons_self b rest) hin
        by_cases hmet :
            metCrit env ctx us nsv s.xp_points s.ledger b.criteria = true
        · have hstep : checkStep env ctx us nsv now u s b =
              { xp_points := s.xp_points + b.xp_reward
                uaRows := s.uaRows ++ [b.id]
                ledger := s.ledger ++ [⟨b.xp_reward, "achievement:" ++ b.name, now⟩]
                newly := s.newly ++ [b.id] } := by
            simp [checkStep, hin, hmet]
          rw [hstep]
          obtain ⟨ih1, ih2, ih3⟩ :=
            checkFold_preserves env ctx us nsv now u A nm hA rest
              ⟨s.xp_points + b.xp_reward, s.uaRows ++ [b.id],
                s.ledger ++ [⟨b.xp_reward, "achievement:" ++ b.name, now⟩],
                s.newly ++ [b.id]⟩ hrest
          refine ⟨?_, ?_, ?_⟩
          · rw [ih1]
            simp only [List.count_append]
            have : [b.id].count A = 0 :=
              List.count_eq_zero.mpr (by simp [Ne.symm hbid])
            omega
          · rw [ih2]
            simp only [countReason, List.filter_append, List.length_append]
            have : (List.filter (fun t => t.reason = nm)
                [(⟨b.xp_reward, "achievement:" ++ b.name, now⟩ : XPTx)]).length = 0 := by
              simp [List.filter, hbnm]
            omega
          · rw [ih3]
            simp [Ne.symm hbid]
        · rw [show checkStep env ctx us nsv now u s b = s by
            simp [checkStep, hin, hmet]]
          exact checkFold_preserves env ctx us nsv now u A nm hA rest s hrest

/-- Each loop pass inserts a `UserAchievement` row for a given id at most
once when the catalog ids are distinct. -/
lemma checkFold_count_le (env : Env) (ctx : Ctx) (us nsv : ℤ) (now : ℚ)
    (u : List ℕ) (A : ℕ) :
    ∀ (cat : List Ach) (s : CheckState), (cat.map Ach.id).Nodup →
      (cat.foldl (checkStep env ctx us nsv now u) s).uaRows.count A ≤
        s.uaRows.count A + (if A ∈ cat.map Ach.id then 1 else 0)
  | [], s, _ => by simp
  | b :: rest, s, hnd => by
      have hnd' : (rest.map Ach.id).Nodup := (List.nodup_cons.mp (by simpa using hnd)).2
      have hbid : b.id ∉ rest.map Ach.id := (List.nodup_cons.mp (by simpa using hnd)).1
      rw [List.foldl_cons]
      by_cases hin : b.id ∈ u
      · rw [show checkStep env ctx us nsv now u s b = s by simp [checkStep, hin]]
        have ih := checkFold_count_le env ctx us nsv now u A rest s hnd'
        simp only [List.map_cons, List.mem_cons]
        by_cases hAr : A ∈ rest.map Ach.id
        · simp only [if_pos hAr] at ih
          simp only [if_pos (Or.inr hAr)]
          omega
        · simp only [if_neg hAr] at ih
          by_cases hAb : A = b.id
          · simp only [if_pos (Or.inl hAb)]
            omega
          · simp only [if_neg (not_or.mpr ⟨hAb, hAr⟩)]
            omega
      · by_cases hmet :
            metCrit env ctx us nsv s.xp_points s.ledger b.criteria = true
        · have hstep : checkStep env ctx us nsv now u s b =
              { xp_points := s.xp_points + b.xp_reward
                uaRows := s.uaRows ++ [b.id]
                ledger := s.ledger ++ [⟨b.xp_reward, "achievement:" ++ b.name, now⟩]
                newly := s.newly ++ [b.id] } := by
            simp [checkStep, hin, hmet]
          rw [hstep]
          have ih := checkFold_count_le env ctx us nsv now u A rest
              ⟨s.xp_points + b.xp_reward, s.uaRows ++ [b.id],
                s.ledger ++ [⟨b.xp_reward, "achievement:" ++ b.name, now⟩],
                s.newly ++ [b.id]⟩ hnd'
          simp only [List.count_append] at ih
          simp only [List.map_cons, List.mem_cons]
          by_cases hAb : A = b.id
          · have hAr : A ∉ rest.map Ach.id := hAb ▸ hbid
            have hone : [b.id].count A = 1 := by simp [hAb]
            simp only [if_neg hAr] at ih
            simp only [if_pos (Or.inl hAb)]
            omega
          · have hzero : [b.id].count A = 0 :=
              List.count_eq_zero.mpr (by simp [hAb])
            by_cases hAr : A ∈ rest.map Ach.id
            · simp only [if_pos hAr] at ih
              simp only [if_pos (Or.inr hAr)]
              omega
            · simp only [if_neg hAr] at ih
              simp only [if_neg (not_or.mpr ⟨hAb, hAr⟩)]
              omega
        · rw [show checkStep env ctx us nsv now u s b = s by
            simp [checkStep, hin, hmet]]
          have ih := checkFold_count_le env ctx us nsv now u A rest s hnd'
          simp only [List.map_cons, List.mem_cons]
          by_cases hAr : A ∈ rest.map Ach.id
          · simp only [if_pos hAr] at ih
            simp only [if_pos (Or.inr hAr)]
            omega
          · simp only [if_neg hAr] at ih
            by_cases hAb : A = b.id
            · simp only [if_pos (Or.inl hAb)]
              omega
            · simp only [if_neg (not_or.mpr ⟨hAb, hAr⟩)]
              omega

/-- C1: at-most-once unlock.  A `check_achievements` pass leaves at most one
`UserAchievement` row per achievement (given the catalog's primary-key /
unique-name integrity), and once an achievement is in the already-unlocked
set, a repeated pass adds no row for it, no `achievement:<name>`
transaction, and never lists it as newly unlocked again. -/
theorem at_most_once_unlock (env : Env) (ctx : Ctx) (us nsv : ℤ) (now : ℚ)
    (catalog : List Ach) (s0 : CheckState) (a : Ach)
    (ha : a ∈ catalog) (hids : (catalog.map Ach.id).Nodup)
    (hnames : (catalog.map Ach.name).Nodup) :
    (check_achievements env ctx us nsv now catalog s0).uaRows.count a.id ≤
      max 1 (s0.uaRows.count a.id) ∧
    (a.id ∈ s0.uaRows →
      (check_achievements env ctx us nsv now catalog s0).uaRows.count a.id =
        s0.uaRows.count a.id ∧
      countReason (check_achievements env ctx us nsv now catalog s0).ledger
          ("achievement:" ++ a.name) =
        countReason s0.ledger ("achievement:" ++ a.name) ∧
      a.id ∉ (check_achievements env ctx us nsv now catalog s0).newly) := by
  by_cases hmem : a.id ∈ s0.uaRows
  · have hcond : ∀ b ∈ catalog, b.id ∉ s0.uaRows →
        b.id ≠ a.id ∧ ("achievement:" ++ b.name) ≠ ("achievement:" ++ a.name) := by
      intro b hb hbu
      constructor
      · intro he
        exact hbu (he ▸ hmem)
      · intro he
        have hnm : b.name = a.name := by
          have hd := congrArg String.data he
          simp only [String.data_append] at hd
          exact String.ext (List.append_cancel_left hd)
        have hba : b = a :=
          List.inj_on_of_nodup_map hnames hb ha hnm
        exact hbu (hba ▸ hmem)
    obtain ⟨h1, h2, h3⟩ := checkFold_preserves env ctx us nsv now s0.uaRows
      a.id ("achievement:" ++ a.name) hmem catalog { s0 with newly := [] } hcond
    rw [check_achievements]
    refine ⟨?_, fun _ => ⟨h1, h2, fun hmm => ?_⟩⟩
    · rw [h1]
      exact le_max_right _ _
    · simpa using h3.mp hmm
  · have hc0 : s0.uaRows.count a.id = 0 := List.count_eq_zero.mpr hmem
    have hle := checkFold_count_le env ctx us nsv now s0.uaRows a.id catalog
      { s0 with newly := [] } hids
    refine ⟨?_, fun hmm => absurd hmm hmem⟩
    rw [check_achievements]
    have : (if a.id ∈ catalog.map Ach.id then 1 else 0) ≤ 1 := by
      split <;> omega
    calc (catalog.foldl (checkStep env ctx us nsv now s0.uaRows)
            { s0 with newly := [] }).uaRows.count a.id
        ≤ s0.uaRows.count a.id + (if a.id ∈ catalog.map Ach.id then 1 else 0) := hle
      _ ≤ 1 := by omega
      _ ≤ max 1 (s0.uaRows.count a.id) := le_max_left _ _

/-- C1 witness: a one-achievement catalog ("First Log", unlockable since the
user has a food log) whose achievement is already unlocked — the theorem
applied there: the pass keeps exactly one row, adds no transaction, and does
not report the achievement again. -/
theorem at_most_once_unlock_witness :
    (check_achievements ⟨0, [], [⟨0, "manual"⟩], 0, 0, 0, 0⟩ noCtx 0 0 0
        [⟨7, "First Log", 50, .food_log_count 1⟩]
        ⟨50, [7], [⟨50, "achievement:First Log", 0⟩], []⟩).uaRows.count 7 ≤
      max 1 (([7] : List ℕ).count 7) ∧
    ((7 : ℕ) ∈ ([7] : List ℕ) →
      (check_achievements ⟨0, [], [⟨0, "manual"⟩], 0, 0, 0, 0⟩ noCtx 0 0 0
          [⟨7, "First Log", 50, .food_log_count 1⟩]
          ⟨50, [7], [⟨50, "achievement:First Log", 0⟩], []⟩).uaRows.count 7 =
        ([7] : List ℕ).count 7 ∧
      countReason (check_achievements ⟨0, [], [⟨0, "manual"⟩], 0, 0, 0, 0⟩ noCtx 0 0 0
          [⟨7, "First Log", 50, .food_log_count 1⟩]
          ⟨50, [7], [⟨50, "achievement:First Log", 0⟩], []⟩).ledger
          ("achievement:" ++ "First Log") =
        countReason [⟨50, "achievement:First Log", 0⟩] ("achievement:" ++ "First Log") ∧
      (7 : ℕ) ∉ (check_achievements ⟨0, [], [⟨0, "manual"⟩], 0, 0, 0, 0⟩ noCtx 0 0 0
          [⟨7, "First Log", 50, .food_log_count 1⟩]
          ⟨50, [7], [⟨50, "achievement:First Log", 0⟩], []⟩).newly) :=
  at_most_once_unlock ⟨0, [], [⟨0, "manual"⟩], 0, 0, 0, 0⟩ noCtx 0 0 0
    [⟨7, "First Log", 50, .food_log_count 1⟩]
    ⟨50, [7], [⟨50, "achievement:First Log", 0⟩], []⟩
    ⟨7, "First Log", 50, .food_log_count 1⟩
    (by decide) (by decide) (by decide)

/-! ## Streak continuity (C2) -/

/-- Folding a sequence of `(date, score)` streak updates through
`update_nutrition_streak`, starting from a given row (the ledger and XP
threading is irrelevant to the streak row and passed empty). -/
def runStreak (s : NS) (l : List (ℤ × ℚ)) : NS :=
  l.foldl (fun ns p => (update_nutrition_streak (some ns) [] 0 p.2 p.1 0).ns) s

/-- Spec-side: the length of the 1-day-consecutive run reading a *reversed*
date list from its head. -/
def revRun : List ℤ → ℕ
  | [] => 0
  | [_] => 1
  | d :: e :: r => if d - e = 1 then revRun (e :: r) + 1 else 1

/-- Spec-side: length of the maximal suffix of `ds` in which consecutive
dates differ by exactly 1 day. -/
def suffRun (ds : List ℤ) : ℕ := revRun ds.reverse

/-- Spec-side: the maximum, over all prefixes of the processed sequence, of
the suffix-run length — i.e. the maximum `current_streak` ever observed. -/
def prefMax (ds : List ℤ) : ℕ := (ds.inits.map suffRun).foldl max 0

/-- Appending one more date to a nonempty sequence extends the suffix run
when the gap is exactly 1 and restarts it at 1 otherwise. -/
lemma suffRun_concat (ds : List ℤ) (d dn : ℤ) (h : ds.getLast? = some dn) :
    suffRun (ds ++ [d]) = if d - dn = 1 then suffRun ds + 1 else 1 := by
  cases hrev : ds.reverse with
  | nil => rw [List.getLast?_eq_head?_reverse, hrev] at h; cases h
  | cons x rest =>
      have hx : x = dn := by
        rw [List.getLast?_eq_head?_reverse, hrev] at h
        simpa using h
      have hrev' : ds.reverse = dn :: rest := by rw [hrev, hx]
      show revRun (ds ++ [d]).reverse = _
      rw [List.reverse_append, hrev']
      show revRun (d :: dn :: rest) = _
      rw [show suffRun ds = revRun (dn :: rest) by rw [suffRun, hrev']]
      rfl

/-- `prefMax` over one more date is the max of the old `prefMax` and the
new suffix run. -/
lemma prefMax_concat (ds : List ℤ) (d : ℤ) :
    prefMax (ds ++ [d]) = max (prefMax ds) (suffRun (ds ++ [d])) := by
  unfold prefMax
  rw [List.inits_append]
  simp [List.inits, List.foldl_append]

/-- Field characterization of a qualifying `streakStep`. -/
lemma streakStep_qual_fields (ns : NS) (sc : ℚ) (d : ℤ)
    (hq : effThreshold ns ≤ sc) :
    (streakStep ns sc d).last_qualifying_date = some d ∧
    (streakStep ns sc d).threshold = ns.threshold ∧
    (streakStep ns sc d).current_streak =
      (match ns.last_qualifying_date with
       | some lq => if d - lq = 1 then ns.current_streak + 1
           else if lq = d then ns.current_streak else 1
       | none => 1) ∧
    (streakStep ns sc d).longest_streak =
      max ns.longest_streak (streakStep ns sc d).current_streak := by
  rcases hlq : ns.last_qualifying_date with _ | lq <;>
    simp only [streakStep, hlq, ge_iff_le, if_pos hq] <;>
    split_ifs <;> simp_all <;> omega

/-- Invariant of the streak fold from a fresh row over a strictly
increasing qualifying sequence: `current_streak` is the suffix run,
`longest_streak` the prefix max, `last_qualifying_date` the last date, and
the threshold stays 60. -/
lemma runStreak_spec (l : List (ℤ × ℚ)) :
    List.Chain' (· < ·) (l.map Prod.fst) →
    (∀ p ∈ l, (60 : ℚ) ≤ p.2) →
    (runStreak freshNS l).current_streak = (suffRun (l.map Prod.fst) : ℤ) ∧
    (runStreak freshNS l).longest_streak = (prefMax (l.map Prod.fst) : ℤ) ∧
    (runStreak freshNS l).last_qualifying_date = (l.map Prod.fst).getLast? ∧
    (runStreak freshNS l).threshold = 60 := by
  induction l using List.reverseRecOn with
  | nil =>
      intro _ _
      refine ⟨by decide, by decide, rfl, rfl⟩
  | append_singleton l p ih =>
      intro hc hs
      have hmap : (l ++ [p]).map Prod.fst = l.map Prod.fst ++ [p.1] := by simp
      rw [hmap] at hc ⊢
      obtain ⟨hc1, -, hlast⟩ := List.chain'_append.mp hc
      have hs1 : ∀ q ∈ l, (60 : ℚ) ≤ q.2 :=
        fun q hq => hs q (List.mem_append_left _ hq)
      have hsp : (60 : ℚ) ≤ p.2 :=
        hs p (List.mem_append_right _ (List.mem_singleton.mpr rfl))
      obtain ⟨ih1, ih2, ih3, ih4⟩ := ih hc1 hs1
      have hrun : runStreak freshNS (l ++ [p]) =
          streakStep (runStreak freshNS l) p.2 p.1 := by
        rw [runStreak, List.foldl_append]
        rw [show (runStreak freshNS l) = l.foldl
          (fun ns p => (update_nutrition_streak (some ns) [] 0 p.2 p.1 0).ns)
          freshNS from rfl]
        simp [update_ns_eq]
      have hqual : effThreshold (runStreak freshNS l) ≤ p.2 := by
        rw [effThreshold, ih4]
        norm_num
        exact hsp
      obtain ⟨f1, f2, f3, f4⟩ :=
        streakStep_qual_fields (runStreak freshNS l) p.2 p.1 hqual
      rw [hrun]
      rcases hlq : (l.map Prod.fst).getLast? with _ | dn
      · -- no prior qualifying date: the sequence processed so far is empty
        have hnil : l.map Prod.fst = [] := by
          rwa [List.getLast?_eq_none_iff] at hlq
        rw [ih3, hlq] at f3
        have hcur : (streakStep (runStreak freshNS l) p.2 p.1).current_streak = 1 := f3
        have hsuff : suffRun (l.map Prod.fst ++ [p.1]) = 1 := by
          rw [hnil]; rfl
        refine ⟨by rw [hcur, hsuff]; norm_num, ?_, by rw [f1, List.getLast?_concat],
          by rw [f2, ih4]⟩
        rw [f4, hcur, ih2, prefMax_concat, hsuff, hnil]
        show (1 : ℤ) ⊔ 1 = ((prefMax [] ⊔ 1 : ℕ) : ℤ)
        decide
      · -- a prior qualifying date dn < p.1
        have hdn : dn < p.1 := by
          refine hlast dn ?_ p.1 ?_ <;> simp [hlq]
        rw [ih3, hlq] at f3
        have f3' : (streakStep (runStreak freshNS l) p.2 p.1).current_streak =
            if p.1 - dn = 1 then (runStreak freshNS l).current_streak + 1
            else if dn = p.1 then (runStreak freshNS l).current_streak
            else 1 := f3
        have hne : ¬ dn = p.1 := by omega
        have hsuff := suffRun_concat (l.map Prod.fst) p.1 dn hlq
        have hcur : (streakStep (runStreak freshNS l) p.2 p.1).current_streak =
            (suffRun (l.map Prod.fst ++ [p.1]) : ℤ) := by
          by_cases hgap : p.1 - dn = 1
          · rw [f3', if_pos hgap, hsuff, if_pos hgap, ih1]
            push_cast
            ring
          · rw [f3', if_neg hgap, if_neg hne, hsuff, if_neg hgap]
            norm_num
        refine ⟨hcur, ?_, by rw [f1, List.getLast?_concat], by rw [f2, ih4]⟩
        rw [f4, hcur, ih2, prefMax_concat]
        push_cast
        rfl

/-- C2: streak continuity.  Processing a strictly increasing sequence of
qualifying days from a fresh row leaves `current_streak` equal to the
length of the maximal suffix of consecutive (gap exactly 1) dates — any
gap > 1 restarts the count at 1 — and `longest_streak` equal to the
maximum `current_streak` ever observed. -/
theorem nutrition_streak_continuity (l : List (ℤ × ℚ))
    (hinc : List.Chain' (· < ·) (l.map Prod.fst))
    (hq : ∀ p ∈ l, (60 : ℚ) ≤ p.2) :
    (runStreak freshNS l).current_streak = (suffRun (l.map Prod.fst) : ℤ) ∧
    (runStreak freshNS l).longest_streak = (prefMax (l.map Prod.fst) : ℤ) :=
  ⟨(runStreak_spec l hinc hq).1, (runStreak_spec l hinc hq).2.1⟩

/-- C2 witness: days 0, 1, 3 with qualifying scores — after the gap the
current streak is 1 while the longest remains 2 — the continuity theorem
applied at that input. -/
theorem nutrition_streak_continuity_witness :
    (runStreak freshNS [(0, 80), (1, 70), (3, 65)]).current_streak =
      (suffRun ([(0, 80), (1, 70), (3, 65)].map Prod.fst) : ℤ) ∧
    (runStreak freshNS [(0, 80), (1, 70), (3, 65)]).longest_streak =
      (prefMax ([(0, 80), (1, 70), (3, 65)].map Prod.fst) : ℤ) :=
  nutrition_streak_continuity [(0, 80), (1, 70), (3, 65)]
    (by norm_num [List.chain'_cons]) (by norm_num)
